import Mathlib

/-!
Shallow embedding of the long-polling update-distribution loop of the
`telebot` package (`bot.go`), together with the response-answering
operations `AnswerInlineQuery` and `AnswerCallbackQuery`.

The transport (`getUpdates`, `sendCommand`) is an external collaborator:
the poll loop is modelled as a function over a finite script of fetch
results, recording for each cycle the requested offset and the payloads
delivered to the three output channels.  Go channels that may be `nil`
are modelled by a `Bool` flag per channel (set / unset) plus the list of
values sent on that channel, in order.
-/

namespace Telebot

/-- A chat message; `bot.go` only carries it through the poll loop, so only
an identifier and text are modelled. -/
structure Message where
  ID : Nat
  Text : String
  deriving Repr, DecidableEq

/-- An inline query; carried opaquely by the poll loop. -/
structure Query where
  ID : String
  deriving Repr, DecidableEq

/-- A callback query; carried opaquely by the poll loop. -/
structure Callback where
  ID : String
  deriving Repr, DecidableEq

/-- An update fetched from the remote source: an integer identifier plus
three optional payload slots (`Payload` holds a message, per the
`/* if message */` comment in `poll`). -/
structure Update where
  ID : Nat
  Payload : Option Message
  Query : Option Telebot.Query
  Callback : Option Telebot.Callback
  deriving Repr, DecidableEq

/-- One value sent on one of the three output channels. -/
inductive Delivery where
  | msg : Message → Delivery
  | query : Telebot.Query → Delivery
  | callback : Telebot.Callback → Delivery
  deriving Repr, DecidableEq

/-- The body of the `for _, update := range updates` loop in `poll`
(`bot.go` lines 76–98) for a single update.  `mS`, `qS`, `cS` record
whether the `messages`, `queries`, `callbacks` channels are non-nil.
Returns the delivery made (if any) and the value of `latestUpdate`
after the iteration: a `continue` on a nil channel skips the
`latestUpdate = update.ID` assignment, every other path reaches it. -/
def routeUpdate (mS qS cS : Bool) (latestUpdate : Nat) (u : Update) :
    Option Delivery × Nat :=
  match u.Payload with
  | some m =>
    if mS then (some (Delivery.msg m), u.ID) else (none, latestUpdate)
  | none =>
    match u.Query with
    | some q =>
      if qS then (some (Delivery.query q), u.ID) else (none, latestUpdate)
    | none =>
      match u.Callback with
      | some c =>
        if cS then (some (Delivery.callback c), u.ID) else (none, latestUpdate)
      | none => (none, u.ID)

/-- The whole `for _, update := range updates` loop of `poll`: routes a
fetched batch in order, threading `latestUpdate`, and returns the
deliveries (in send order) together with the final `latestUpdate`. -/
def processBatch (mS qS cS : Bool) (latestUpdate : Nat) :
    List Update → List Delivery × Nat
  | [] => ([], latestUpdate)
  | u :: rest =>
    let r := routeUpdate mS qS cS latestUpdate u
    let t := processBatch mS qS cS r.2 rest
    (r.1.toList ++ t.1, t.2)

/-- Result of one `getUpdates` call: a transport/decode error (the loop
logs it and retries) or a batch of updates. -/
abbrev FetchResult := Except String (List Update)

/-- Observable trace of a run of the poll loop: the offset requested by
each `getUpdates` call (in order), all channel sends (in order), and the
final value of `latestUpdate`. -/
structure PollTrace where
  requests : List Nat
  deliveries : List Delivery
  cursor : Nat
  deriving Repr, DecidableEq

/-- The `for { ... }` loop of `poll` (`bot.go` lines 65–99), run over a
finite script of fetch results, one per cycle, starting from cursor
`cur`.  Each cycle requests offset `latestUpdate+1`; on a fetch error
the cursor is left unchanged and the loop retries; on success the batch
is routed by `processBatch`. -/
def pollRun (mS qS cS : Bool) (cur : Nat) : List FetchResult → PollTrace
  | [] => ⟨[], [], cur⟩
  | r :: rest =>
    match r with
    | Except.error _ =>
      let t := pollRun mS qS cS cur rest
      ⟨(cur + 1) :: t.requests, t.deliveries, t.cursor⟩
    | Except.ok us =>
      let b := processBatch mS qS cS cur us
      let t := pollRun mS qS cS b.2 rest
      ⟨(cur + 1) :: t.requests, b.1 ++ t.deliveries, t.cursor⟩

/-- The value of `latestUpdate` at the end of each cycle of a run. -/
def cursorTrace (mS qS cS : Bool) (cur : Nat) : List FetchResult → List Nat
  | [] => []
  | Except.error _ :: rest => cur :: cursorTrace mS qS cS cur rest
  | Except.ok us :: rest =>
    let c := (processBatch mS qS cS cur us).2
    c :: cursorTrace mS qS cS c rest

/-- `poll` proper: `latestUpdate := 0`, then loop.  The channel
arguments of the Go function are the three set/unset flags here. -/
def poll (mS qS cS : Bool) (script : List FetchResult) : PollTrace :=
  pollRun mS qS cS 0 script

/-- `Listen(subscription, timeout)`: `go b.poll(subscription, nil, nil,
timeout)` — a poll loop whose query and callback channels are nil; `mS`
records whether the caller-supplied subscription channel is non-nil. -/
def Listen (mS : Bool) (script : List FetchResult) : PollTrace :=
  poll mS false false script

/-- The message carried by a delivery, if it is a message-channel send. -/
def msgOf : Delivery → Option Message
  | Delivery.msg m => some m
  | _ => none

/-- The query carried by a delivery, if it is a query-channel send. -/
def queryOf : Delivery → Option Telebot.Query
  | Delivery.query q => some q
  | _ => none

/-- The callback carried by a delivery, if it is a callback-channel send. -/
def callbackOf : Delivery → Option Telebot.Callback
  | Delivery.callback c => some c
  | _ => none

/-- Messages sent on the message channel, extracted from a delivery trace. -/
def deliveredMessages (ds : List Delivery) : List Message :=
  ds.filterMap msgOf

/-- Queries sent on the query channel, extracted from a delivery trace. -/
def deliveredQueries (ds : List Delivery) : List Telebot.Query :=
  ds.filterMap queryOf

/-- Callbacks sent on the callback channel, extracted from a delivery trace. -/
def deliveredCallbacks (ds : List Delivery) : List Telebot.Callback :=
  ds.filterMap callbackOf

/-- Running maximum of update identifiers of a batch, starting from `cur`. -/
def batchMax (cur : Nat) (us : List Update) : Nat :=
  us.foldl (fun m u => Nat.max m u.ID) cur

/-- Fetcher contract along a script, relative to the cursor the loop holds
when each batch arrives (with all three channels set the loop's cursor after
a batch is its running maximum): every successful batch is sorted by
non-decreasing identifier and none of its identifiers is below the cursor. -/
def goodScript (cur : Nat) : List FetchResult → Prop
  | [] => True
  | Except.error _ :: rest => goodScript cur rest
  | Except.ok us :: rest =>
    (List.Pairwise (fun a b => a.ID ≤ b.ID) us ∧ ∀ u ∈ us, cur ≤ u.ID) ∧
      goodScript (batchMax cur us) rest

/-- Running maximum of all update identifiers seen so far, recorded after
each cycle of a script (unchanged on an error cycle). -/
def maxSeenTrace (cur : Nat) : List FetchResult → List Nat
  | [] => []
  | Except.error _ :: rest => cur :: maxSeenTrace cur rest
  | Except.ok us :: rest => batchMax cur us :: maxSeenTrace (batchMax cur us) rest

/-- Number of populated payload slots of an update. -/
def populatedCount (u : Update) : Nat :=
  (if u.Payload.isSome then 1 else 0) +
    (if u.Query.isSome then 1 else 0) +
    (if u.Callback.isSome then 1 else 0)

/-- The update is dropped by `poll`'s routing: the first populated slot
(in the order the `if`/`else if` chain tests them) has a nil channel. -/
def droppedBy (mS qS cS : Bool) (u : Update) : Prop :=
  (u.Payload.isSome ∧ mS = false) ∨
    (u.Payload = none ∧ u.Query.isSome ∧ qS = false) ∨
    (u.Payload = none ∧ u.Query = none ∧ u.Callback.isSome ∧ cS = false)

instance (mS qS cS : Bool) (u : Update) : Decidable (droppedBy mS qS cS u) := by
  unfold droppedBy
  infer_instance

/-- Outcome of one outbound remote call as seen by the answer
operations: `sendCommand` error, `json.Unmarshal` error, an envelope
with `Ok == false` and a description, or success. -/
inductive RemoteOutcome where
  | transportError : String → RemoteOutcome
  | decodeError : String → RemoteOutcome
  | notOk : String → RemoteOutcome
  | ok : RemoteOutcome
  deriving Repr, DecidableEq

/-- Inline-query response object.  `bot.go` only touches its `QueryID`
field (`response.QueryID = query.ID`); the remaining caller-supplied
contents are abstracted into one opaque component. -/
structure QueryResponse where
  QueryID : String
  otherFields : String
  deriving Repr, DecidableEq

/-- Callback-query response object; `bot.go` only touches `CallbackID`. -/
structure CallbackResponse where
  CallbackID : String
  otherFields : String
  deriving Repr, DecidableEq

/-- `AnswerInlineQuery` (`bot.go` lines 544–567): first assigns
`response.QueryID = query.ID`, then performs the remote call.  Returns
the caller-visible state of the response object together with the error
returned (`none` on success). -/
def AnswerInlineQuery (query : Telebot.Query) (response : QueryResponse)
    (remote : RemoteOutcome) : QueryResponse × Option String :=
  let response := { response with QueryID := query.ID }
  match remote with
  | RemoteOutcome.transportError e => (response, some e)
  | RemoteOutcome.decodeError e => (response, some e)
  | RemoteOutcome.notOk desc => (response, some ("telebot: " ++ desc))
  | RemoteOutcome.ok => (response, none)

/-- `AnswerCallbackQuery` (`bot.go` lines 572–595): first assigns
`response.CallbackID = callback.ID`, then performs the remote call. -/
def AnswerCallbackQuery (callback : Telebot.Callback) (response : CallbackResponse)
    (remote : RemoteOutcome) : CallbackResponse × Option String :=
  let response := { response with CallbackID := callback.ID }
  match remote with
  | RemoteOutcome.transportError e => (response, some e)
  | RemoteOutcome.decodeError e => (response, some e)
  | RemoteOutcome.notOk desc => (response, some ("telebot: " ++ desc))
  | RemoteOutcome.ok => (response, none)

/-- Concrete message with id 5 used by the spec scenarios. -/
def m5ex : Message := ⟨5, "hi"⟩

/-- Concrete query used by the spec scenarios. -/
def q1ex : Telebot.Query := ⟨"q1"⟩

/-- Scenario update `{id:5, Message:"hi"}`. -/
def u5ex : Update := ⟨5, some m5ex, none, none⟩

/-- Scenario update `{id:6, Query:{id:"q1"}}`. -/
def u6ex : Update := ⟨6, none, some q1ex, none⟩

/-- Scenario update `{id:1, Message:"x"}`. -/
def u1ex : Update := ⟨1, some ⟨1, "x"⟩, none, none⟩

/-! ## Theorems -/

/-- With all three channels set, every routing path assigns
`latestUpdate = update.ID`. -/
theorem routeUpdate_allset_cursor (cur : Nat) (u : Update) :
    (routeUpdate true true true cur u).2 = u.ID := by
  rcases u with ⟨i, p, q, c⟩
  cases p <;> cases q <;> cases c <;> rfl

/-- The starting value never exceeds the running maximum. -/
theorem le_batchMax (cur : Nat) (us : List Update) : cur ≤ batchMax cur us := by
  induction us generalizing cur with
  | nil => exact Nat.le_refl cur
  | cons u rest ih =>
    exact Nat.le_trans (Nat.le_max_left cur u.ID) (ih (Nat.max cur u.ID))

/-- With all channels set, processing a sorted batch whose identifiers are
at least the current cursor ends with the cursor at the running maximum. -/
theorem processBatch_allset_batchMax (us : List Update) (cur : Nat)
    (hsort : List.Pairwise (fun a b => a.ID ≤ b.ID) us)
    (hge : ∀ u ∈ us, cur ≤ u.ID) :
    (processBatch true true true cur us).2 = batchMax cur us := by
  induction us generalizing cur with
  | nil => rfl
  | cons u rest ih =>
    have hstep : (processBatch true true true cur (u :: rest)).2
        = (processBatch true true true (routeUpdate true true true cur u).2 rest).2 :=
      rfl
    rw [hstep, routeUpdate_allset_cursor]
    have hmax : Nat.max cur u.ID = u.ID :=
      Nat.max_eq_right (hge u (List.mem_cons_self u rest))
    have hb : batchMax cur (u :: rest) = batchMax u.ID rest := by
      simp only [batchMax, List.foldl_cons]
      rw [hmax]
    rw [hb]
    exact ih u.ID (List.Pairwise.of_cons hsort)
      fun v hv => (List.pairwise_cons.mp hsort).1 v hv

/-- With all channels set and the fetcher contract respected, the cursor
after each cycle is the running maximum of all identifiers seen so far, and
the cursor values over time form a non-decreasing sequence. -/
theorem cursorTrace_eq_maxSeen (script : List FetchResult) (cur : Nat)
    (h : goodScript cur script) :
    cursorTrace true true true cur script = maxSeenTrace cur script ∧
    List.Chain' (fun a b => a ≤ b)
      (cur :: cursorTrace true true true cur script) := by
  induction script generalizing cur with
  | nil => exact ⟨rfl, List.chain'_singleton cur⟩
  | cons r rest ih =>
    cases r with
    | error e =>
      obtain ⟨h1, h2⟩ := ih cur h
      refine ⟨?_, ?_⟩
      · show cur :: cursorTrace true true true cur rest
          = cur :: maxSeenTrace cur rest
        rw [h1]
      · exact List.chain'_cons.mpr ⟨Nat.le_refl cur, h2⟩
    | ok us =>
      obtain ⟨⟨hsort, hge⟩, hrest⟩ := h
      have hpb := processBatch_allset_batchMax us cur hsort hge
      obtain ⟨h1, h2⟩ := ih (batchMax cur us) hrest
      refine ⟨?_, ?_⟩
      · show (processBatch true true true cur us).2
            :: cursorTrace true true true (processBatch true true true cur us).2 rest
          = batchMax cur us :: maxSeenTrace (batchMax cur us) rest
        rw [hpb, h1]
      · show List.Chain' (fun a b => a ≤ b)
          (cur :: (processBatch true true true cur us).2
            :: cursorTrace true true true (processBatch true true true cur us).2 rest)
        rw [hpb]
        exact List.chain'_cons.mpr ⟨le_batchMax cur us, h2⟩

/-- C2, counterexample: the batch `[{id:6, Query}]` (sorted, identifier above
the cursor) processed with the query channel unset leaves the cursor at 0,
not at the maximum identifier 6 seen so far. -/
theorem c2_counterexample :
    (poll true false false [Except.ok [u6ex]]).cursor = 0 ∧ (0 : Nat) ≠ 6 := by
  decide

/-- C2, amended: provided all three output channels are set and every fetched
batch is sorted by non-decreasing identifier with no identifier below the
cursor at fetch time (the fetcher contract), the cursor after each cycle
equals the maximum of all update identifiers seen so far, and the sequence of
cursor values over time is non-decreasing starting from 0. -/
theorem c2_cursor_is_running_max (script : List FetchResult)
    (h : goodScript 0 script) :
    cursorTrace true true true 0 script = maxSeenTrace 0 script ∧
    List.Chain' (fun a b => a ≤ b)
      (0 :: cursorTrace true true true 0 script) :=
  cursorTrace_eq_maxSeen script 0 h

/-- C2, witness: the running-maximum property on the concrete script whose
single batch is `[{id:5, Message}, {id:6, Query}]`. -/
theorem c2_witness :
    cursorTrace true true true 0 [Except.ok [u5ex, u6ex]]
      = maxSeenTrace 0 [Except.ok [u5ex, u6ex]] ∧
    List.Chain' (fun a b => a ≤ b)
      (0 :: cursorTrace true true true 0 [Except.ok [u5ex, u6ex]]) :=
  c2_cursor_is_running_max [Except.ok [u5ex, u6ex]]
    ⟨⟨by decide, by decide⟩, trivial⟩

/-- C5: the offsets requested across a run are exactly one more than the
cursor value held at each fetch (the initial cursor followed by the
end-of-cycle cursors, minus the last); in particular a loop instance's first
fetch, starting from cursor 0, requests offset 1. -/
theorem c5_fetch_offsets (mS qS cS : Bool) (cur : Nat)
    (script : List FetchResult) :
    (pollRun mS qS cS cur script).requests =
      ((cur :: cursorTrace mS qS cS cur script).dropLast).map (fun c => c + 1) ∧
    ∀ (r : FetchResult) (rest : List FetchResult),
      ((poll mS qS cS (r :: rest)).requests).head? = some 1 := by
  constructor
  · induction script generalizing cur with
    | nil => rfl
    | cons r rest ih =>
      cases r with
      | error e =>
        show (cur + 1) :: (pollRun mS qS cS cur rest).requests
          = ((cur :: cur :: cursorTrace mS qS cS cur rest).dropLast).map
              (fun c => c + 1)
        rw [List.dropLast_cons₂, List.map_cons, ih]
      | ok us =>
        show (cur + 1)
            :: (pollRun mS qS cS (processBatch mS qS cS cur us).2 rest).requests
          = ((cur :: (processBatch mS qS cS cur us).2
              :: cursorTrace mS qS cS (processBatch mS qS cS cur us).2 rest).dropLast).map
              (fun c => c + 1)
        rw [List.dropLast_cons₂, List.map_cons, ih]
  · intro r rest
    cases r <;> rfl

/-- C1, counterexample: for the batch `[{id:5, Message}, {id:6, Query}]` with
the query channel unset, the message channel does receive id 5's message, but
the cursor ends at 5, not 6: the `continue` taken on a nil channel skips the
`latestUpdate = update.ID` assignment. -/
theorem c1_counterexample :
    poll true false false [Except.ok [u5ex, u6ex]] =
      ⟨[1], [Delivery.msg m5ex], 5⟩ ∧
    (poll true false false [Except.ok [u5ex, u6ex]]).cursor ≠ 6 := by
  decide

/-- C1, amended: for every update whose corresponding output channel is unset
(nil), the poll loop drops the update and leaves the cursor unchanged — it
does not advance to the dropped update's identifier. -/
theorem c1_dropped_update_keeps_cursor (mS qS cS : Bool) (cur : Nat)
    (u : Update) (h : droppedBy mS qS cS u) :
    routeUpdate mS qS cS cur u = (none, cur) := by
  rcases u with ⟨i, p, q, c⟩
  cases p <;> cases q <;> cases c <;> simp_all [droppedBy, routeUpdate]

/-- C1, witness: the dropped-update rule applied to the scenario's query
update with the query channel unset. -/
theorem c1_witness : routeUpdate true false false 5 u6ex = (none, 5) :=
  c1_dropped_update_keeps_cursor true false false 5 u6ex (by decide)

/-- C3, counterexample: an update with two populated payload slots (Message
and Query) is not treated as having no recognized payload — with all channels
set, its message is delivered to the message channel. -/
theorem c3_counterexample :
    processBatch true true true 0 [⟨7, some ⟨7, "m"⟩, some ⟨"qq"⟩, none⟩] =
      ([Delivery.msg ⟨7, "m"⟩], 7) := by
  decide

/-- C3, amended: an update with zero populated payload slots is treated as
having no recognized payload (nothing delivered, cursor still advanced);
an update with more than one populated slot is routed by the first populated
slot in the fixed order Message, then Query, then Callback, as if that slot
were the sole payload. -/
theorem c3_first_populated_slot_wins (mS qS cS : Bool) (cur : Nat) (u : Update) :
    (u.Payload = none → u.Query = none → u.Callback = none →
      routeUpdate mS qS cS cur u = (none, u.ID)) ∧
    (∀ m, u.Payload = some m → mS = true →
      routeUpdate mS qS cS cur u = (some (Delivery.msg m), u.ID)) ∧
    (∀ q, u.Payload = none → u.Query = some q → qS = true →
      routeUpdate mS qS cS cur u = (some (Delivery.query q), u.ID)) ∧
    (∀ c, u.Payload = none → u.Query = none → u.Callback = some c → cS = true →
      routeUpdate mS qS cS cur u = (some (Delivery.callback c), u.ID)) := by
  rcases u with ⟨i, p, q, c⟩
  refine ⟨?_, ?_, ?_, ?_⟩ <;> intros <;> simp_all [routeUpdate]

/-- C3, witness: the priority rule applied to a concrete update populating
both the Message and the Query slot. -/
theorem c3_witness :
    routeUpdate true true true 0 ⟨7, some ⟨7, "m"⟩, some ⟨"qq"⟩, none⟩ =
      (some (Delivery.msg ⟨7, "m"⟩), 7) :=
  (c3_first_populated_slot_wins true true true 0
    ⟨7, some ⟨7, "m"⟩, some ⟨"qq"⟩, none⟩).2.1 ⟨7, "m"⟩ rfl rfl

/-- C4: on a fetch error the poll loop leaves the cursor unchanged, delivers
nothing for that cycle, and continues with the rest of the script (the next
request uses the identical cursor); and in the concrete scenario of two fetch
errors followed by the batch `[{id:1, Message:"x"}]`, all three fetches
request offset 1, the message is delivered, and the cursor ends at 1. -/
theorem c4_fetch_error_retry (mS qS cS : Bool) (cur : Nat) (e : String)
    (rest : List FetchResult) :
    pollRun mS qS cS cur (Except.error e :: rest) =
      ⟨(cur + 1) :: (pollRun mS qS cS cur rest).requests,
        (pollRun mS qS cS cur rest).deliveries,
        (pollRun mS qS cS cur rest).cursor⟩ ∧
    poll true true true [Except.error "e1", Except.error "e2", Except.ok [u1ex]] =
      ⟨[1, 1, 1], [Delivery.msg ⟨1, "x"⟩], 1⟩ := by
  exact ⟨rfl, by decide⟩

/-- C6: an update with no recognized payload populated produces no delivery,
raises no error, and still advances the cursor to its identifier; in a batch
the loop simply continues with the remaining updates from that cursor. -/
theorem c6_malformed_update_skipped (mS qS cS : Bool) (cur : Nat) (u : Update)
    (h1 : u.Payload = none) (h2 : u.Query = none) (h3 : u.Callback = none) :
    routeUpdate mS qS cS cur u = (none, u.ID) ∧
    ∀ rest, processBatch mS qS cS cur (u :: rest) =
      processBatch mS qS cS u.ID rest := by
  rcases u with ⟨i, p, q, c⟩
  subst_vars
  exact ⟨rfl, fun rest => rfl⟩

/-- C6, witness: the skip rule applied to a concrete payload-free update. -/
theorem c6_witness :
    routeUpdate true true true 3 ⟨9, none, none, none⟩ = (none, 9) :=
  (c6_malformed_update_skipped true true true 3 ⟨9, none, none, none⟩
    rfl rfl rfl).1

/-- C7: for the batch `[{id:5, Message:"hi"}, {id:6, Query:{id:"q1"}}]` with
all channels set, one cycle delivers exactly id 5's message to the message
channel and exactly id 6's query to the query channel, nothing to the
callback channel, and leaves the cursor at 6. -/
theorem c7_end_to_end_scenario :
    deliveredMessages (poll true true true [Except.ok [u5ex, u6ex]]).deliveries
      = [m5ex] ∧
    deliveredQueries (poll true true true [Except.ok [u5ex, u6ex]]).deliveries
      = [q1ex] ∧
    deliveredCallbacks (poll true true true [Except.ok [u5ex, u6ex]]).deliveries
      = [] ∧
    (poll true true true [Except.ok [u5ex, u6ex]]).cursor = 6 := by
  decide

/-- C10: `AnswerInlineQuery` and `AnswerCallbackQuery` overwrite the
caller-supplied response object's identifier field (`QueryID` resp.
`CallbackID`) with the query's resp. callback's identifier before the remote
call, leaving the rest of the response untouched, and the mutation is
visible to the caller for every remote outcome — in particular when the
operation returns an error, as a transport error does. -/
theorem c10_answer_mutates_response (q : Telebot.Query) (r : QueryResponse)
    (cb : Telebot.Callback) (cr : CallbackResponse) (o o2 : RemoteOutcome)
    (e : String) :
    (AnswerInlineQuery q r o).1.QueryID = q.ID ∧
    (AnswerInlineQuery q r o).1.otherFields = r.otherFields ∧
    (AnswerInlineQuery q r (RemoteOutcome.transportError e)).2 = some e ∧
    (AnswerCallbackQuery cb cr o2).1.CallbackID = cb.ID ∧
    (AnswerCallbackQuery cb cr o2).1.otherFields = cr.otherFields ∧
    (AnswerCallbackQuery cb cr (RemoteOutcome.transportError e)).2 = some e := by
  cases o <;> cases o2 <;>
    simp [AnswerInlineQuery, AnswerCallbackQuery]

/-- With the query and callback channels unset, every delivery made while
routing a batch is a message-channel send. -/
theorem processBatch_nilqc_only_messages (mS : Bool) (us : List Update) :
    ∀ cur, ∀ d ∈ (processBatch mS false false cur us).1,
      ∃ m, d = Delivery.msg m := by
  induction us with
  | nil =>
    intro cur d hd
    simp [processBatch] at hd
  | cons u rest ih =>
    intro cur d hd
    rcases u with ⟨i, p, q, c⟩
    cases p with
    | some m =>
      by_cases hm : mS
      · subst hm
        rcases List.mem_cons.mp hd with h | h
        · exact ⟨m, h⟩
        · exact ih _ d h
      · have hm' : mS = false := by
          cases mS
          · rfl
          · exact absurd rfl hm
        subst hm'
        exact ih _ d hd
    | none =>
      cases q <;> cases c <;> exact ih _ d hd

/-- With the query and callback channels unset, every delivery made across a
whole run is a message-channel send. -/
theorem pollRun_nilqc_only_messages (mS : Bool) (script : List FetchResult) :
    ∀ cur, ∀ d ∈ (pollRun mS false false cur script).deliveries,
      ∃ m, d = Delivery.msg m := by
  induction script with
  | nil =>
    intro cur d hd
    simp [pollRun] at hd
  | cons r rest ih =>
    intro cur d hd
    cases r with
    | error e => exact ih _ d hd
    | ok us =>
      rcases List.mem_append.mp hd with h | h
      · exact processBatch_nilqc_only_messages mS us cur d h
      · exact ih _ d h

/-- A delivery trace consisting only of message sends yields no queries. -/
theorem filterMap_queryOf_eq_nil (ds : List Delivery)
    (h : ∀ d ∈ ds, ∃ m, d = Delivery.msg m) : ds.filterMap queryOf = [] := by
  induction ds with
  | nil => rfl
  | cons d rest ih =>
    obtain ⟨m, rfl⟩ := h d (List.mem_cons_self d rest)
    show List.filterMap queryOf rest = []
    exact ih fun v hv => h v (List.mem_cons_of_mem _ hv)

/-- A delivery trace consisting only of message sends yields no callbacks. -/
theorem filterMap_callbackOf_eq_nil (ds : List Delivery)
    (h : ∀ d ∈ ds, ∃ m, d = Delivery.msg m) :
    ds.filterMap callbackOf = [] := by
  induction ds with
  | nil => rfl
  | cons d rest ih =>
    obtain ⟨m, rfl⟩ := h d (List.mem_cons_self d rest)
    show List.filterMap callbackOf rest = []
    exact ih fun v hv => h v (List.mem_cons_of_mem _ hv)

/-- C8: a loop started via `Listen` has its query and callback channels nil,
so for every script of fetched batches every value delivered to any channel
is a message-channel send of some message, and the query and callback views
of the delivery trace are empty. -/
theorem c8_listen_only_messages (mS : Bool) (script : List FetchResult) :
    (∀ d ∈ (Listen mS script).deliveries, ∃ m, d = Delivery.msg m) ∧
    deliveredQueries (Listen mS script).deliveries = [] ∧
    deliveredCallbacks (Listen mS script).deliveries = [] := by
  have hall : ∀ d ∈ (Listen mS script).deliveries, ∃ m, d = Delivery.msg m :=
    fun d hd => pollRun_nilqc_only_messages mS script 0 d hd
  exact ⟨hall, filterMap_queryOf_eq_nil _ hall,
    filterMap_callbackOf_eq_nil _ hall⟩

/-- C8, witness: the isolation property applied to the concrete script whose
single batch holds the message update `{id:5, Message:"hi"}`. -/
theorem c8_witness : ∃ m, Delivery.msg m5ex = Delivery.msg m :=
  (c8_listen_only_messages true [Except.ok [u5ex]]).1 (Delivery.msg m5ex)
    (by decide)

/-- With the message channel set, the messages delivered while routing a
batch are exactly the populated `Payload` slots of the batch, in order. -/
theorem processBatch_messages_filterMap (qS cS : Bool) (us : List Update) :
    ∀ cur, (processBatch true qS cS cur us).1.filterMap msgOf
      = us.filterMap Update.Payload := by
  induction us with
  | nil => intro cur; rfl
  | cons u rest ih =>
    intro cur
    rcases u with ⟨i, p, q, c⟩
    cases p with
    | some m =>
      simp [processBatch, routeUpdate, List.filterMap_cons, msgOf, ih]
    | none =>
      cases q with
      | some qq =>
        cases qS <;>
          simp [processBatch, routeUpdate, List.filterMap_cons, msgOf,
            queryOf, ih]
      | none =>
        cases c with
        | some cc =>
          cases cS <;>
            simp [processBatch, routeUpdate, List.filterMap_cons, msgOf,
              callbackOf, ih]
        | none =>
          simp [processBatch, routeUpdate, List.filterMap_cons, ih]

/-- With the query channel set and every update having at most one populated
payload slot, the queries delivered while routing a batch are exactly the
populated `Query` slots of the batch, in order. -/
theorem processBatch_queries_filterMap (mS cS : Bool) (us : List Update)
    (hwf : ∀ u ∈ us, populatedCount u ≤ 1) :
    ∀ cur, (processBatch mS true cS cur us).1.filterMap queryOf
      = us.filterMap Update.Query := by
  induction us with
  | nil => intro cur; rfl
  | cons u rest ih =>
    intro cur
    have hu := hwf u (List.mem_cons_self u rest)
    have hrest : ∀ v ∈ rest, populatedCount v ≤ 1 :=
      fun v hv => hwf v (List.mem_cons_of_mem u hv)
    rcases u with ⟨i, p, q, c⟩
    cases p with
    | some m =>
      cases q with
      | some qq =>
        exfalso
        cases c <;> simp [populatedCount] at hu
      | none =>
        cases mS <;>
          simp [processBatch, routeUpdate, List.filterMap_cons, msgOf,
            queryOf, ih hrest]
    | none =>
      cases q with
      | some qq =>
        simp [processBatch, routeUpdate, List.filterMap_cons, queryOf,
          ih hrest]
      | none =>
        cases c with
        | some cc =>
          cases cS <;>
            simp [processBatch, routeUpdate, List.filterMap_cons,
              queryOf, callbackOf, ih hrest]
        | none =>
          simp [processBatch, routeUpdate, List.filterMap_cons, ih hrest]

/-- With the callback channel set and every update having at most one
populated payload slot, the callbacks delivered while routing a batch are
exactly the populated `Callback` slots of the batch, in order. -/
theorem processBatch_callbacks_filterMap (mS qS : Bool) (us : List Update)
    (hwf : ∀ u ∈ us, populatedCount u ≤ 1) :
    ∀ cur, (processBatch mS qS true cur us).1.filterMap callbackOf
      = us.filterMap Update.Callback := by
  induction us with
  | nil => intro cur; rfl
  | cons u rest ih =>
    intro cur
    have hu := hwf u (List.mem_cons_self u rest)
    have hrest : ∀ v ∈ rest, populatedCount v ≤ 1 :=
      fun v hv => hwf v (List.mem_cons_of_mem u hv)
    rcases u with ⟨i, p, q, c⟩
    cases p with
    | some m =>
      cases c with
      | some cc =>
        exfalso
        cases q <;> simp [populatedCount] at hu
      | none =>
        cases mS <;>
          simp [processBatch, routeUpdate, List.filterMap_cons, msgOf,
            callbackOf, ih hrest]
    | none =>
      cases q with
      | some qq =>
        cases c with
        | some cc =>
          exfalso
          simp [populatedCount] at hu
        | none =>
          cases qS <;>
            simp [processBatch, routeUpdate, List.filterMap_cons,
              queryOf, callbackOf, ih hrest]
      | none =>
        cases c with
        | some cc =>
          simp [processBatch, routeUpdate, List.filterMap_cons, callbackOf,
            ih hrest]
        | none =>
          simp [processBatch, routeUpdate, List.filterMap_cons, ih hrest]

/-- C9: for a batch sorted by non-decreasing identifier in which every update
has at most one populated payload slot, routing happens in batch order, and
each set channel receives exactly the in-order subsequence of its own payload
category within the batch — other-typed and dropped updates appear only as
gaps. -/
theorem c9_per_channel_subsequence (mS qS cS : Bool) (cur : Nat)
    (us : List Update)
    (hwf : ∀ u ∈ us, populatedCount u ≤ 1)
    (_hsort : List.Pairwise (fun a b => a.ID ≤ b.ID) us) :
    (mS = true → deliveredMessages (processBatch mS qS cS cur us).1
      = us.filterMap Update.Payload) ∧
    (qS = true → deliveredQueries (processBatch mS qS cS cur us).1
      = us.filterMap Update.Query) ∧
    (cS = true → deliveredCallbacks (processBatch mS qS cS cur us).1
      = us.filterMap Update.Callback) := by
  refine ⟨?_, ?_, ?_⟩
  · intro hm
    subst hm
    exact processBatch_messages_filterMap qS cS us cur
  · intro hq
    subst hq
    exact processBatch_queries_filterMap mS cS us hwf cur
  · intro hc
    subst hc
    exact processBatch_callbacks_filterMap mS qS us hwf cur

/-- C9, witness: the per-channel subsequence property on the concrete batch
`[{id:5, Message:"hi"}, {id:6, Query:{id:"q1"}}]` with only the message
channel set. -/
theorem c9_witness :
    deliveredMessages (processBatch true false false 0 [u5ex, u6ex]).1
      = [u5ex, u6ex].filterMap Update.Payload :=
  (c9_per_channel_subsequence true false false 0 [u5ex, u6ex]
    (by decide) (by decide)).1 rfl

end Telebot
